import Mathlib

/-!
Verification of the advisory identifier module (`rustsec/src/advisory/id.rs`).

Strings are embedded as Lean `String`; the Rust iterator `str::split('-')`
is embedded as `splitDash` over the string's character list, and Rust's
`str::parse::<u32>()` as `parseU32`. Panics from `.unwrap()` calls are made
explicit via `panicked` constructors so that panic-freedom is provable
rather than assumed.
-/

namespace RustsecId

/-- Placeholder advisory name: shouldn't be used until an ID is assigned
(`pub const PLACEHOLDER: &str = "RUSTSEC-0000-0000"`). -/
def PLACEHOLDER : String := "RUSTSEC-0000-0000"

/-- Known kinds of advisory IDs (`pub enum Kind`). -/
inductive Kind where
  /-- Our advisory namespace -/
  | RustSec
  /-- Common Vulnerabilities and Exposures -/
  | Cve
  /-- GitHub Security Advisory -/
  | Ghsa
  /-- Cisco Talos identifiers -/
  | Talos
  /-- Other types of advisory identifiers we don't know about -/
  | Other
deriving DecidableEq, Repr

/-- An identifier for an individual advisory (`pub struct Id`). -/
structure Id where
  /-- An autodetected identifier kind -/
  kind : Kind
  /-- Year this vulnerability was published (a `u32` in Rust) -/
  year : Option Nat
  /-- The actual string representing the identifier -/
  string : String
deriving DecidableEq, Repr

/-- The four distinct parse failure messages produced via `fail!(ErrorKind::Parse, ...)`;
each embeds the offending `advisory_id` in its message text. -/
inductive ParseErr where
  /-- Message text: malformed year in advisory ID -/
  | malformedYear
  /-- Message text: out-of-range year in advisory ID -/
  | outOfRangeYear
  /-- Message text: incomplete advisory ID -/
  | incompleteId
  /-- Message text: malformed advisory ID -/
  | malformedId
deriving DecidableEq, Repr

/-- Result of `parse_year`: `Result<u32, Error>` in Rust, with an explicit
marker for the panics its two `.unwrap()` calls could raise. -/
inductive YearResult where
  | ok (year : Nat)
  | err (e : ParseErr)
  | panicked
deriving DecidableEq, Repr

/-- Result of `Id::from_str`: `Result<Id, Error>` in Rust, with an explicit
marker for a panic propagated out of `parse_year`. -/
inductive ParseResult where
  | ok (id : Id)
  | err (e : ParseErr)
  | panicked
deriving DecidableEq, Repr

/-- Embedding of Rust's `str::split('-')` on the character list of a string:
splitting `"a-b"` gives `["a","b"]`, `""` gives `[""]`, `"-"` gives `["",""]`. -/
def splitDash : List Char → List (List Char)
  | [] => [[]]
  | c :: cs =>
    if c = '-' then [] :: splitDash cs
    else
      match splitDash cs with
      | [] => [[c]]
      | h :: t => (c :: h) :: t

/-- Value of a single ASCII decimal digit, as accepted by Rust's integer parsing. -/
def digitVal (c : Char) : Option Nat :=
  if c.isDigit then some (c.toNat - 48) else none

/-- Accumulate the decimal value of a digit sequence; fails on any non-digit. -/
def digitsVal : List Char → Nat → Option Nat
  | [], acc => some acc
  | c :: cs, acc =>
    match digitVal c with
    | some d => digitsVal cs (acc * 10 + d)
    | none => none

/-- `u32::MAX + 1 = 2^32`. -/
def U32_MOD : Nat := 4294967296

/-- Drop the single optional leading `+` sign accepted by Rust's unsigned
integer parsing. -/
def stripPlus (cs : List Char) : List Char :=
  match cs with
  | c :: rest => if c = '+' then rest else cs
  | [] => []

/-- Embedding of Rust's `str::parse::<u32>()`: an optional leading `+` sign,
then one or more ASCII digits, whose value must fit in a `u32`
(otherwise Rust reports `PosOverflow`). -/
def parseU32 (cs : List Char) : Option Nat :=
  if (stripPlus cs).isEmpty then none
  else
    match digitsVal (stripPlus cs) 0 with
    | some n => if n < U32_MOD then some n else none
    | none => none

/-- `parseU32` applied to a Lean string. -/
def parseU32S (s : String) : Option Nat := parseU32 s.data

/-- Modelled from the spec: `YEAR_MIN` is imported from `super::date`, whose
source is not part of this module; the spec only says advisory years must lie
in "a fixed admissible range (a configured minimum and maximum year constant)"
and that years such as 2017 and 2018 are admissible while `"RUSTSEC-18-0001"`
must fail. We model the configured minimum as the year 2000. -/
def YEAR_MIN : Nat := 2000

/-- Modelled from the spec: `YEAR_MAX` is imported from `super::date`, whose
source is not part of this module (see `YEAR_MIN`). We model the configured
maximum as the year 2100. -/
def YEAR_MAX : Nat := 2100

/-- The body of `parse_year` once the first segment has been discarded and
the second segment `y` extracted: parse `y` as the year and range-check it,
then require exactly one further integer-shaped segment. -/
def parseYearCore (y : List Char) (rest : List (List Char)) : YearResult :=
  match parseU32 y with
  | none => .err .malformedYear
  | some n =>
    if YEAR_MIN ≤ n ∧ n ≤ YEAR_MAX then
      match rest with
      | [] => .err .incompleteId
      | num :: rest2 =>
        if (parseU32 num).isSome then
          match rest2 with
          | [] => .ok n
          | _ :: _ => .err .malformedId
        else .err .malformedId
    else .err .outOfRangeYear

/-- Embedding of `fn parse_year(advisory_id: &str) -> Result<u32, Error>`.
The Rust code takes successive elements of the `split('-')` iterator:
the first two with `.unwrap()` (panicking if absent, hence the `panicked`
arms), then proceeds as `parseYearCore`. -/
def parse_year (advisory_id : String) : YearResult :=
  match splitDash advisory_id.data with
  | [] => .panicked
  | [_] => .panicked
  | _ :: y :: rest => parseYearCore y rest

/-- Embedding of `Kind::detect`: fixed case-sensitive prefix checks in
priority order, with `Other` as the catch-all. -/
def Kind.detect (s : String) : Kind :=
  if "RUSTSEC-".data.isPrefixOf s.data then .RustSec
  else if "CVE-".data.isPrefixOf s.data then .Cve
  else if "TALOS-".data.isPrefixOf s.data then .Talos
  else if "GHSA-".data.isPrefixOf s.data then .Ghsa
  else .Other

/-- Embedding of `impl Default for Id`. -/
def Id.default : Id :=
  { kind := .RustSec, year := none, string := PLACEHOLDER }

/-- Embedding of `Id::from_str`: the placeholder short-circuits to the
default identifier; otherwise the kind is detected and year-bearing kinds
are validated via `parse_year`. -/
def Id.from_str (advisory_id : String) : ParseResult :=
  if advisory_id = PLACEHOLDER then .ok Id.default
  else
    let kind := Kind.detect advisory_id
    match kind with
    | .RustSec | .Cve | .Talos =>
      match parse_year advisory_id with
      | .ok y => .ok { kind := kind, year := some y, string := advisory_id }
      | .err e => .err e
      | .panicked => .panicked
    | _ => .ok { kind := kind, year := none, string := advisory_id }

/-- Embedding of `Id::is_placeholder`. -/
def Id.is_placeholder (id : Id) : Bool :=
  id.string = PLACEHOLDER

/-- Embedding of `Id::numerical_part`: unless the identifier is the
placeholder, parse the last `split('-')` segment of the raw string as `u32`. -/
def Id.numerical_part (id : Id) : Option Nat :=
  if id.is_placeholder then none
  else
    match (splitDash id.string.data).getLast? with
    | some seg => parseU32 seg
    | none => none

/-- Embedding of `Id::url`: scheme-specific URL templates, `None` for the
RustSec placeholder and for the catch-all match arm. -/
def Id.url (id : Id) : Option String :=
  match id.kind with
  | .RustSec =>
    if id.is_placeholder then none
    else some ("https://rustsec.org/advisories/" ++ id.string)
  | .Cve => some ("https://cve.mitre.org/cgi-bin/cvename.cgi?name=" ++ id.string)
  | .Ghsa => some ("https://github.com/advisories/" ++ id.string)
  | .Talos => some ("https://www.talosintelligence.com/reports/" ++ id.string)
  | .Other => none

/-- An identifier is constructible when it is produced by a successful parse;
`Id.default` is also constructible this way, as parsing the placeholder
returns it. -/
def Constructible (id : Id) : Prop :=
  ∃ s, Id.from_str s = .ok id

/-! ### Helper lemmas -/

theorem isPrefixOf_iff_exists (l1 l2 : List Char) :
    l1.isPrefixOf l2 = true ↔ ∃ t, l2 = l1 ++ t := by
  rw [List.isPrefixOf_iff_prefix]
  constructor
  · rintro ⟨t, rfl⟩; exact ⟨t, rfl⟩
  · rintro ⟨t, rfl⟩; exact ⟨t, rfl⟩

theorem splitDash_ne_nil (cs : List Char) : splitDash cs ≠ [] := by
  induction cs with
  | nil => simp [splitDash]
  | cons c cs ih =>
    simp only [splitDash]
    split
    · simp
    · split
      · simp
      · simp

theorem two_le_length_splitDash (cs : List Char) (h : '-' ∈ cs) :
    2 ≤ (splitDash cs).length := by
  induction cs with
  | nil => simp at h
  | cons c cs ih =>
    simp only [splitDash]
    by_cases hc : c = '-'
    · rw [if_pos hc]
      cases hs : splitDash cs with
      | nil => exact absurd hs (splitDash_ne_nil cs)
      | cons a t => simp
    · rw [if_neg hc]
      have hm : '-' ∈ cs := by
        rcases List.mem_cons.mp h with h1 | h1
        · exact absurd h1.symm hc
        · exact h1
      have h2 := ih hm
      cases hs : splitDash cs with
      | nil => exact absurd hs (splitDash_ne_nil cs)
      | cons a t =>
        rw [hs] at h2
        simp at h2 ⊢
        omega

theorem detect_iff_bool (s : String) :
    (Kind.detect s = .RustSec ↔ "RUSTSEC-".data.isPrefixOf s.data = true) ∧
    (Kind.detect s = .Cve ↔
      (¬ "RUSTSEC-".data.isPrefixOf s.data = true ∧
       "CVE-".data.isPrefixOf s.data = true)) ∧
    (Kind.detect s = .Talos ↔
      (¬ "RUSTSEC-".data.isPrefixOf s.data = true ∧
       ¬ "CVE-".data.isPrefixOf s.data = true ∧
       "TALOS-".data.isPrefixOf s.data = true)) ∧
    (Kind.detect s = .Ghsa ↔
      (¬ "RUSTSEC-".data.isPrefixOf s.data = true ∧
       ¬ "CVE-".data.isPrefixOf s.data = true ∧
       ¬ "TALOS-".data.isPrefixOf s.data = true ∧
       "GHSA-".data.isPrefixOf s.data = true)) ∧
    (Kind.detect s = .Other ↔
      (¬ "RUSTSEC-".data.isPrefixOf s.data = true ∧
       ¬ "CVE-".data.isPrefixOf s.data = true ∧
       ¬ "TALOS-".data.isPrefixOf s.data = true ∧
       ¬ "GHSA-".data.isPrefixOf s.data = true)) := by
  unfold Kind.detect
  by_cases h1 : "RUSTSEC-".data.isPrefixOf s.data = true <;>
    by_cases h2 : "CVE-".data.isPrefixOf s.data = true <;>
      by_cases h3 : "TALOS-".data.isPrefixOf s.data = true <;>
        by_cases h4 : "GHSA-".data.isPrefixOf s.data = true <;>
          simp_all

theorem dash_mem_of_yearBearing (s : String)
    (h : Kind.detect s = .RustSec ∨ Kind.detect s = .Cve ∨ Kind.detect s = .Talos) :
    '-' ∈ s.data := by
  have hd := detect_iff_bool s
  have hpre : ∃ p t, ('-' ∈ p) ∧ s.data = p ++ t := by
    rcases h with h | h | h
    · rcases (isPrefixOf_iff_exists _ _).mp (hd.1.mp h) with ⟨t, ht⟩
      exact ⟨_, t, by decide, ht⟩
    · rcases (isPrefixOf_iff_exists _ _).mp (hd.2.1.mp h).2 with ⟨t, ht⟩
      exact ⟨_, t, by decide, ht⟩
    · rcases (isPrefixOf_iff_exists _ _).mp (hd.2.2.1.mp h).2.2 with ⟨t, ht⟩
      exact ⟨_, t, by decide, ht⟩
  rcases hpre with ⟨p, t, hp, ht⟩
  rw [ht]
  exact List.mem_append_left _ hp

theorem parse_year_eq (s : String) (a y : List Char) (rest : List (List Char))
    (hs : splitDash s.data = a :: y :: rest) :
    parse_year s = parseYearCore y rest := by
  unfold parse_year
  rw [hs]

theorem parseYearCore_ne_panicked (y : List Char) (rest : List (List Char)) :
    parseYearCore y rest ≠ .panicked := by
  unfold parseYearCore
  split
  · simp
  · split
    · split
      · simp
      · split
        · split
          · simp
          · simp
        · simp
    · simp

theorem parse_year_ne_panicked (s : String) (h : '-' ∈ s.data) :
    parse_year s ≠ .panicked := by
  have h2 := two_le_length_splitDash s.data h
  cases hs : splitDash s.data with
  | nil => rw [hs] at h2; simp at h2
  | cons a t =>
    cases t with
    | nil => rw [hs] at h2; simp at h2
    | cons y rest =>
      rw [parse_year_eq s a y rest hs]
      exact parseYearCore_ne_panicked y rest

theorem from_str_of_detect_other (s : String) (hp : s ≠ PLACEHOLDER)
    (h : Kind.detect s = .Ghsa ∨ Kind.detect s = .Other) :
    Id.from_str s = .ok { kind := Kind.detect s, year := none, string := s } := by
  unfold Id.from_str
  rw [if_neg hp]
  rcases h with h | h <;> rw [h]

theorem from_str_of_yearBearing (s : String) (hp : s ≠ PLACEHOLDER)
    (h : Kind.detect s = .RustSec ∨ Kind.detect s = .Cve ∨ Kind.detect s = .Talos) :
    Id.from_str s =
      match parse_year s with
      | .ok y => .ok { kind := Kind.detect s, year := some y, string := s }
      | .err e => .err e
      | .panicked => .panicked := by
  unfold Id.from_str
  rw [if_neg hp]
  rcases h with h | h | h <;> rw [h]

theorem string_of_from_str_ok (s : String) (id : Id) (h : Id.from_str s = .ok id) :
    id.string = s := by
  by_cases hp : s = PLACEHOLDER
  · rw [hp] at h ⊢
    unfold Id.from_str at h
    rw [if_pos rfl] at h
    cases h
    rfl
  · cases hk : Kind.detect s with
    | RustSec =>
      rw [from_str_of_yearBearing s hp (Or.inl hk)] at h
      cases hy : parse_year s with
      | ok y2 => rw [hy] at h; injection h with h2; rw [← h2]
      | err e => rw [hy] at h; simp at h
      | panicked => rw [hy] at h; simp at h
    | Cve =>
      rw [from_str_of_yearBearing s hp (Or.inr (Or.inl hk))] at h
      cases hy : parse_year s with
      | ok y2 => rw [hy] at h; injection h with h2; rw [← h2]
      | err e => rw [hy] at h; simp at h
      | panicked => rw [hy] at h; simp at h
    | Talos =>
      rw [from_str_of_yearBearing s hp (Or.inr (Or.inr hk))] at h
      cases hy : parse_year s with
      | ok y2 => rw [hy] at h; injection h with h2; rw [← h2]
      | err e => rw [hy] at h; simp at h
      | panicked => rw [hy] at h; simp at h
    | Ghsa =>
      rw [from_str_of_detect_other s hp (Or.inl hk)] at h
      injection h with h2
      rw [← h2]
    | Other =>
      rw [from_str_of_detect_other s hp (Or.inr hk)] at h
      injection h with h2
      rw [← h2]

theorem splitDash_of_no_dash (cs : List Char) (h : '-' ∉ cs) : splitDash cs = [cs] := by
  induction cs with
  | nil => rfl
  | cons c cs ih =>
    have hc : ¬ c = '-' := fun he => h (by rw [he]; exact List.mem_cons_self _ _)
    have hm : '-' ∉ cs := fun hm => h (List.mem_cons_of_mem _ hm)
    simp only [splitDash, if_neg hc, ih hm]

theorem getLast?_splitDash_append (xs ys : List Char) :
    (splitDash (xs ++ '-' :: ys)).getLast? = (splitDash ys).getLast? := by
  induction xs with
  | nil =>
    have he : splitDash ('-' :: ys) = [] :: splitDash ys := by
      simp [splitDash]
    rw [List.nil_append, he]
    cases hs : splitDash ys with
    | nil => exact absurd hs (splitDash_ne_nil ys)
    | cons a t => rw [List.getLast?_cons_cons]
  | cons x xs ih =>
    simp only [List.cons_append, splitDash]
    by_cases hx : x = '-'
    · rw [if_pos hx]
      cases hs : splitDash (xs ++ '-' :: ys) with
      | nil => exact absurd hs (splitDash_ne_nil _)
      | cons a t =>
        rw [List.getLast?_cons_cons]
        rw [hs] at ih
        exact ih
    · rw [if_neg hx]
      have hmem : '-' ∈ xs ++ '-' :: ys :=
        List.mem_append_right _ (List.mem_cons_self _ _)
      have h2 := two_le_length_splitDash (xs ++ '-' :: ys) hmem
      cases hs : splitDash (xs ++ '-' :: ys) with
      | nil => exact absurd hs (splitDash_ne_nil _)
      | cons a t =>
        rw [hs] at ih h2
        cases t with
        | nil => simp at h2
        | cons b t2 =>
          rw [List.getLast?_cons_cons] at ih
          simp only []
          rw [List.getLast?_cons_cons]
          exact ih

theorem getLast?_splitDash_eq (cs seg : List Char) (hnd : '-' ∉ seg)
    (h : cs = seg ∨ ∃ pre, cs = pre ++ '-' :: seg) :
    (splitDash cs).getLast? = some seg := by
  rcases h with rfl | ⟨pre, rfl⟩
  · rw [splitDash_of_no_dash _ hnd]
    rfl
  · rw [getLast?_splitDash_append pre seg, splitDash_of_no_dash _ hnd]
    rfl

theorem from_str_ne_panicked_of_yearBearing (s : String) (hp : s ≠ PLACEHOLDER)
    (hyb : Kind.detect s = .RustSec ∨ Kind.detect s = .Cve ∨ Kind.detect s = .Talos) :
    Id.from_str s ≠ .panicked := by
  have hnp := parse_year_ne_panicked s (dash_mem_of_yearBearing s hyb)
  rw [from_str_of_yearBearing s hp hyb]
  split
  · simp
  · simp
  · rename_i heq
    exact absurd heq hnp

theorem exists_cons_cons_of_yearBearing (s : String)
    (hk : Kind.detect s = .RustSec ∨ Kind.detect s = .Cve ∨ Kind.detect s = .Talos) :
    ∃ a y rest, splitDash s.data = a :: y :: rest := by
  have h2 := two_le_length_splitDash s.data (dash_mem_of_yearBearing s hk)
  cases hs : splitDash s.data with
  | nil => rw [hs] at h2; simp at h2
  | cons a t =>
    cases t with
    | nil => rw [hs] at h2; simp at h2
    | cons y rest => exact ⟨a, y, rest, rfl⟩

theorem from_str_yearBearing_eq (s : String) (hp : s ≠ PLACEHOLDER)
    (hk : Kind.detect s = .RustSec ∨ Kind.detect s = .Cve ∨ Kind.detect s = .Talos)
    (a y : List Char) (rest : List (List Char))
    (hsplit : splitDash s.data = a :: y :: rest) :
    Id.from_str s =
      match parseU32 y with
      | none => .err .malformedYear
      | some n =>
        if YEAR_MIN ≤ n ∧ n ≤ YEAR_MAX then
          match rest with
          | [] => .err .incompleteId
          | num :: rest2 =>
            if (parseU32 num).isSome then
              match rest2 with
              | [] => .ok { kind := Kind.detect s, year := some n, string := s }
              | _ :: _ => .err .malformedId
            else .err .malformedId
        else .err .outOfRangeYear := by
  rw [from_str_of_yearBearing s hp hk, parse_year_eq s a y rest hsplit]
  unfold parseYearCore
  cases hy : parseU32 y with
  | none => rfl
  | some n =>
    by_cases hr : YEAR_MIN ≤ n ∧ n ≤ YEAR_MAX
    · simp only [if_pos hr]
      cases rest with
      | nil => rfl
      | cons num rest2 =>
        by_cases hn : (parseU32 num).isSome = true
        · simp only [if_pos hn]
          cases rest2 <;> rfl
        · simp only [if_neg hn]
    · simp only [if_neg hr]

theorem from_str_ok_of_valid (s : String) (hp : s ≠ PLACEHOLDER)
    (hk : Kind.detect s = .RustSec ∨ Kind.detect s = .Cve ∨ Kind.detect s = .Talos)
    (a y n : List Char) (v : Nat) (hsplit : splitDash s.data = [a, y, n])
    (hy : parseU32 y = some v) (h1 : YEAR_MIN ≤ v) (h2 : v ≤ YEAR_MAX)
    (hn : (parseU32 n).isSome = true) :
    Id.from_str s = .ok { kind := Kind.detect s, year := some v, string := s } := by
  rw [from_str_yearBearing_eq s hp hk a y [n] hsplit]
  simp [hy, h1, h2, hn]

theorem from_str_err_malformedYear (s : String) (hp : s ≠ PLACEHOLDER)
    (hk : Kind.detect s = .RustSec ∨ Kind.detect s = .Cve ∨ Kind.detect s = .Talos)
    (a y : List Char) (rest : List (List Char))
    (hsplit : splitDash s.data = a :: y :: rest) (hy : parseU32 y = none) :
    Id.from_str s = .err .malformedYear := by
  rw [from_str_yearBearing_eq s hp hk a y rest hsplit]
  simp [hy]

theorem from_str_err_outOfRange (s : String) (hp : s ≠ PLACEHOLDER)
    (hk : Kind.detect s = .RustSec ∨ Kind.detect s = .Cve ∨ Kind.detect s = .Talos)
    (a y : List Char) (rest : List (List Char)) (v : Nat)
    (hsplit : splitDash s.data = a :: y :: rest) (hy : parseU32 y = some v)
    (hr : ¬ (YEAR_MIN ≤ v ∧ v ≤ YEAR_MAX)) :
    Id.from_str s = .err .outOfRangeYear := by
  rw [from_str_yearBearing_eq s hp hk a y rest hsplit]
  simp [hy, hr]

theorem from_str_err_incomplete (s : String) (hp : s ≠ PLACEHOLDER)
    (hk : Kind.detect s = .RustSec ∨ Kind.detect s = .Cve ∨ Kind.detect s = .Talos)
    (a y : List Char) (v : Nat)
    (hsplit : splitDash s.data = [a, y]) (hy : parseU32 y = some v)
    (h1 : YEAR_MIN ≤ v) (h2 : v ≤ YEAR_MAX) :
    Id.from_str s = .err .incompleteId := by
  rw [from_str_yearBearing_eq s hp hk a y [] hsplit]
  simp [hy, h1, h2]

theorem from_str_err_malformedId (s : String) (hp : s ≠ PLACEHOLDER)
    (hk : Kind.detect s = .RustSec ∨ Kind.detect s = .Cve ∨ Kind.detect s = .Talos)
    (a y n : List Char) (rest : List (List Char)) (v : Nat)
    (hsplit : splitDash s.data = a :: y :: n :: rest) (hy : parseU32 y = some v)
    (h1 : YEAR_MIN ≤ v) (h2 : v ≤ YEAR_MAX)
    (hbad : parseU32 n = none ∨ rest ≠ []) :
    Id.from_str s = .err .malformedId := by
  rw [from_str_yearBearing_eq s hp hk a y (n :: rest) hsplit]
  rcases hbad with hn | hr
  · simp [hy, h1, h2, hn]
  · cases rest with
    | nil => exact absurd rfl hr
    | cons b t =>
      by_cases hn : (parseU32 n).isSome = true
      · simp [hy, h1, h2, hn]
      · simp [hy, h1, h2, hn]

theorem parseU32_lt (cs : List Char) (n : Nat) (h : parseU32 cs = some n) :
    n < U32_MOD := by
  unfold parseU32 at h
  split at h
  · exact absurd h (by simp)
  · split at h
    · rename_i m hm
      split at h
      · rename_i hlt
        injection h with h2
        omega
      · exact absurd h (by simp)
    · exact absurd h (by simp)

theorem digitVal_plus : digitVal '+' = none := by decide

theorem digitsVal_cons_plus (cs : List Char) (acc : Nat) :
    digitsVal ('+' :: cs) acc = none := by
  unfold digitsVal
  rw [digitVal_plus]

theorem parseU32_none_of_big (cs : List Char) (v : Nat)
    (hd : digitsVal cs 0 = some v) (hbig : U32_MOD ≤ v) :
    parseU32 cs = none := by
  cases cs with
  | nil =>
    simp [digitsVal] at hd
    unfold U32_MOD at hbig
    omega
  | cons c cs2 =>
    have hc : ¬ c = '+' := by
      intro he
      subst he
      rw [digitsVal_cons_plus] at hd
      exact absurd hd (by simp)
    have hstrip : stripPlus (c :: cs2) = c :: cs2 := by
      simp only [stripPlus, if_neg hc]
    unfold parseU32
    rw [hstrip]
    simp [hd, Nat.not_lt.mpr hbig]

end RustsecId

namespace RustsecId

/-- C2: parsing the exact placeholder string `"RUSTSEC-0000-0000"` succeeds,
short-circuiting all scheme validation, and returns the default identifier:
kind `RustSec`, no year, raw text the placeholder, `is_placeholder` true,
no URL and no numerical part. -/
theorem C2_placeholder_parse :
    Id.from_str PLACEHOLDER = .ok Id.default ∧
    Id.default.kind = .RustSec ∧
    Id.default.year = none ∧
    Id.default.string = PLACEHOLDER ∧
    Id.default.is_placeholder = true ∧
    Id.default.url = none ∧
    Id.default.numerical_part = none := by
  refine ⟨by simp [Id.from_str], rfl, rfl, rfl, by decide, ?_, ?_⟩
  · simp [Id.url, Id.default, Id.is_placeholder]
  · simp [Id.numerical_part, Id.default, Id.is_placeholder]

/-- C4: the kind classifier `Kind.detect` is a total function on strings
returning `RustSec` exactly for strings whose character sequence begins with
the exact characters `"RUSTSEC-"`, else `Cve` for prefix `"CVE-"`, else
`Talos` for prefix `"TALOS-"`, else `Ghsa` for prefix `"GHSA-"`, and `Other`
otherwise (in particular for the empty string); prefix matching is exact,
character by character, with no normalization or trimming. -/
theorem C4_detect_characterization (s : String) :
    (Kind.detect s = .RustSec ↔ ∃ t, s.data = "RUSTSEC-".data ++ t) ∧
    (Kind.detect s = .Cve ↔
      (¬ (∃ t, s.data = "RUSTSEC-".data ++ t) ∧ ∃ t, s.data = "CVE-".data ++ t)) ∧
    (Kind.detect s = .Talos ↔
      (¬ (∃ t, s.data = "RUSTSEC-".data ++ t) ∧ ¬ (∃ t, s.data = "CVE-".data ++ t) ∧
       ∃ t, s.data = "TALOS-".data ++ t)) ∧
    (Kind.detect s = .Ghsa ↔
      (¬ (∃ t, s.data = "RUSTSEC-".data ++ t) ∧ ¬ (∃ t, s.data = "CVE-".data ++ t) ∧
       ¬ (∃ t, s.data = "TALOS-".data ++ t) ∧ ∃ t, s.data = "GHSA-".data ++ t)) ∧
    (Kind.detect s = .Other ↔
      (¬ (∃ t, s.data = "RUSTSEC-".data ++ t) ∧ ¬ (∃ t, s.data = "CVE-".data ++ t) ∧
       ¬ (∃ t, s.data = "TALOS-".data ++ t) ∧ ¬ (∃ t, s.data = "GHSA-".data ++ t))) := by
  have hd := detect_iff_bool s
  rw [← isPrefixOf_iff_exists "RUSTSEC-".data s.data,
      ← isPrefixOf_iff_exists "CVE-".data s.data,
      ← isPrefixOf_iff_exists "TALOS-".data s.data,
      ← isPrefixOf_iff_exists "GHSA-".data s.data]
  exact hd

/-- C3: every string not starting with `"RUSTSEC-"`, `"CVE-"` or `"TALOS-"`
is classified `Ghsa` or `Other` and parses successfully with no year and the
raw text stored unmodified — no structural validation is applied. -/
theorem C3_catch_all_accepts (s : String)
    (h : ¬ ("RUSTSEC-".data.isPrefixOf s.data = true ∨
            "CVE-".data.isPrefixOf s.data = true ∨
            "TALOS-".data.isPrefixOf s.data = true)) :
    (Kind.detect s = .Ghsa ∨ Kind.detect s = .Other) ∧
    Id.from_str s = .ok { kind := Kind.detect s, year := none, string := s } := by
  push_neg at h
  obtain ⟨h1, h2, h3⟩ := h
  have hd := detect_iff_bool s
  have hp : s ≠ PLACEHOLDER := by
    intro he
    apply h1
    rw [he]
    decide
  have hk : Kind.detect s = .Ghsa ∨ Kind.detect s = .Other := by
    by_cases h4 : "GHSA-".data.isPrefixOf s.data = true
    · exact Or.inl (hd.2.2.2.1.mpr ⟨h1, h2, h3, h4⟩)
    · exact Or.inr (hd.2.2.2.2.mpr ⟨h1, h2, h3, h4⟩)
  exact ⟨hk, from_str_of_detect_other s hp hk⟩

/-- Witness for C3 at the concrete unrecognized input `"Anonymous-42"`. -/
theorem C3_witness :
    (Kind.detect "Anonymous-42" = .Ghsa ∨ Kind.detect "Anonymous-42" = .Other) ∧
    Id.from_str "Anonymous-42" =
      .ok { kind := Kind.detect "Anonymous-42", year := none, string := "Anonymous-42" } :=
  C3_catch_all_accepts "Anonymous-42" (by decide)

/-- C9: the parser never panics: `Id.from_str` never reaches the `panicked`
marker on any input, because whenever `parse_year` is invoked (non-placeholder
strings of a year-bearing detected kind) the string contains a `-`, so
splitting yields at least two segments and both `.unwrap()` extractions
inside `parse_year` succeed. -/
theorem C9_parser_never_panics (s : String) :
    Id.from_str s ≠ .panicked ∧
    ((Kind.detect s = .RustSec ∨ Kind.detect s = .Cve ∨ Kind.detect s = .Talos) →
      2 ≤ (splitDash s.data).length ∧ parse_year s ≠ .panicked) := by
  refine ⟨?_, fun hyb => ⟨two_le_length_splitDash s.data (dash_mem_of_yearBearing s hyb),
                          parse_year_ne_panicked s (dash_mem_of_yearBearing s hyb)⟩⟩
  by_cases hp : s = PLACEHOLDER
  · rw [hp]
    unfold Id.from_str
    rw [if_pos rfl]
    simp
  · cases hk : Kind.detect s with
    | RustSec => exact from_str_ne_panicked_of_yearBearing s hp (Or.inl hk)
    | Cve => exact from_str_ne_panicked_of_yearBearing s hp (Or.inr (Or.inl hk))
    | Talos => exact from_str_ne_panicked_of_yearBearing s hp (Or.inr (Or.inr hk))
    | Ghsa =>
      rw [from_str_of_detect_other s hp (Or.inl hk)]
      simp
    | Other =>
      rw [from_str_of_detect_other s hp (Or.inr hk)]
      simp

/-- Witness for C9 at the bare prefix `"CVE-"`: two segments, no panic, and
the empty second segment fails with the malformed-year error. -/
theorem C9_witness :
    Id.from_str "CVE-" ≠ .panicked ∧
    (2 ≤ (splitDash "CVE-".data).length ∧ parse_year "CVE-" ≠ .panicked) ∧
    Id.from_str "CVE-" = .err .malformedYear := by
  refine ⟨(C9_parser_never_panics "CVE-").1,
          (C9_parser_never_panics "CVE-").2 (Or.inr (Or.inl (by decide))), by decide⟩

/-- C8: two constructible identifiers (results of successful parses, the
default identifier included) are equal exactly when their raw strings are
equal; the kind and year fields are determined by the raw string. -/
theorem C8_eq_iff_string_eq (id1 id2 : Id)
    (h1 : Constructible id1) (h2 : Constructible id2) :
    id1 = id2 ↔ id1.string = id2.string := by
  constructor
  · intro h
    rw [h]
  · intro hs
    obtain ⟨s1, hs1⟩ := h1
    obtain ⟨s2, hs2⟩ := h2
    have e1 := string_of_from_str_ok s1 id1 hs1
    have e2 := string_of_from_str_ok s2 id2 hs2
    have hss : s1 = s2 := by rw [← e1, ← e2, hs]
    subst hss
    rw [hs1] at hs2
    exact ParseResult.ok.inj hs2

/-- Witness for C8 at two distinct constructible identifiers. -/
theorem C8_witness :
    (Id.default = { kind := Kind.Cve, year := some 2017, string := "CVE-2017-1234" } ↔
      Id.default.string = Id.string { kind := Kind.Cve, year := some 2017, string := "CVE-2017-1234" }) :=
  C8_eq_iff_string_eq Id.default
    { kind := .Cve, year := some 2017, string := "CVE-2017-1234" }
    ⟨PLACEHOLDER, by decide⟩ ⟨"CVE-2017-1234", by decide⟩

/-- C5: `numerical_part` returns the `u32` value of the text following the
final `-` delimiter of the raw string (the whole raw string when it holds
no `-`), absent for the placeholder and absent when that trailing segment
does not parse as a `u32`; the result depends only on the raw string, not
on the identifier's kind or year. -/
theorem C5_numerical_part (id : Id) :
    (id.string = PLACEHOLDER → id.numerical_part = none) ∧
    (∀ seg : List Char, id.string ≠ PLACEHOLDER → '-' ∉ seg →
      (id.string.data = seg ∨ ∃ pre, id.string.data = pre ++ '-' :: seg) →
      id.numerical_part = parseU32 seg) ∧
    (∀ (k : Kind) (y : Option Nat),
      (Id.mk k y id.string).numerical_part = id.numerical_part) := by
  refine ⟨?_, ?_, ?_⟩
  · intro hp
    simp [Id.numerical_part, Id.is_placeholder, hp]
  · intro seg hp hnd hsplit
    have hl := getLast?_splitDash_eq id.string.data seg hnd hsplit
    simp [Id.numerical_part, Id.is_placeholder, hp, hl]
  · intro k y
    rfl

/-- Witness for C5 at the concrete identifier parsed from `"Anonymous-42"`:
the numerical part is the parse of the trailing segment `"42"`, and it is
the same whatever the kind field holds. -/
theorem C5_witness :
    (Id.mk Kind.Other none "Anonymous-42").numerical_part = parseU32 "42".data ∧
    (Id.mk Kind.Ghsa none "Anonymous-42").numerical_part =
      (Id.mk Kind.Other none "Anonymous-42").numerical_part := by
  constructor
  · exact (C5_numerical_part (Id.mk Kind.Other none "Anonymous-42")).2.1 "42".data
      (by decide) (by decide) (Or.inr ⟨"Anonymous".data, by decide⟩)
  · exact (C5_numerical_part (Id.mk Kind.Other none "Anonymous-42")).2.2 Kind.Ghsa none

/-- C6: the URL projection returns exactly the scheme-specific template with
the raw string embedded verbatim — the RustSec advisories page (except for
the placeholder), the MITRE CVE lookup, the GitHub advisories page, the
Talos reports page — and is absent for kind `Other` and for the RustSec
placeholder. -/
theorem C6_url (id : Id) :
    (id.kind = .RustSec → id.string ≠ PLACEHOLDER →
      id.url = some ("https://rustsec.org/advisories/" ++ id.string)) ∧
    (id.kind = .Cve →
      id.url = some ("https://cve.mitre.org/cgi-bin/cvename.cgi?name=" ++ id.string)) ∧
    (id.kind = .Ghsa →
      id.url = some ("https://github.com/advisories/" ++ id.string)) ∧
    (id.kind = .Talos →
      id.url = some ("https://www.talosintelligence.com/reports/" ++ id.string)) ∧
    (id.kind = .Other → id.url = none) ∧
    (id.kind = .RustSec → id.string = PLACEHOLDER → id.url = none) := by
  refine ⟨fun hk hp => ?_, fun hk => ?_, fun hk => ?_, fun hk => ?_,
         fun hk => ?_, fun hk hp => ?_⟩
  · simp [Id.url, Id.is_placeholder, hk, hp]
  · simp [Id.url, Id.is_placeholder, hk]
  · simp [Id.url, Id.is_placeholder, hk]
  · simp [Id.url, Id.is_placeholder, hk]
  · simp [Id.url, hk]
  · simp [Id.url, Id.is_placeholder, hk, hp]

/-- Witness for C6 at a concrete GHSA identifier. -/
theorem C6_witness :
    (Id.mk Kind.Ghsa none "GHSA-4mmc-49vf-jmcp").url =
      some ("https://github.com/advisories/" ++ "GHSA-4mmc-49vf-jmcp") :=
  (C6_url (Id.mk Kind.Ghsa none "GHSA-4mmc-49vf-jmcp")).2.2.1 rfl

/-- C1: for a non-placeholder string of detected kind RustSec, Cve or Talos,
parsing succeeds exactly when splitting on `-` yields three segments whose
second parses as a `u32` inside `[YEAR_MIN, YEAR_MAX]` and whose third parses
as a `u32`; on success the year is the second segment's value, and each
failure yields its error: malformed year (second segment not integer-shaped),
out-of-range year, incomplete identifier (no third segment), malformed
identifier (third segment not integer-shaped, or extra segments). -/
theorem C1_year_bearing_validation (s : String) (hp : s ≠ PLACEHOLDER)
    (hk : Kind.detect s = .RustSec ∨ Kind.detect s = .Cve ∨ Kind.detect s = .Talos) :
    ((∃ id, Id.from_str s = .ok id) ↔
      (∃ a y n v, splitDash s.data = [a, y, n] ∧ parseU32 y = some v ∧
        YEAR_MIN ≤ v ∧ v ≤ YEAR_MAX ∧ (parseU32 n).isSome = true)) ∧
    (∀ a y n v, splitDash s.data = [a, y, n] → parseU32 y = some v →
      YEAR_MIN ≤ v → v ≤ YEAR_MAX → (parseU32 n).isSome = true →
      Id.from_str s = .ok { kind := Kind.detect s, year := some v, string := s }) ∧
    (∀ a y rest, splitDash s.data = a :: y :: rest → parseU32 y = none →
      Id.from_str s = .err .malformedYear) ∧
    (∀ a y rest v, splitDash s.data = a :: y :: rest → parseU32 y = some v →
      ¬ (YEAR_MIN ≤ v ∧ v ≤ YEAR_MAX) → Id.from_str s = .err .outOfRangeYear) ∧
    (∀ a y v, splitDash s.data = [a, y] → parseU32 y = some v →
      YEAR_MIN ≤ v → v ≤ YEAR_MAX → Id.from_str s = .err .incompleteId) ∧
    (∀ a y n rest v, splitDash s.data = a :: y :: n :: rest → parseU32 y = some v →
      YEAR_MIN ≤ v → v ≤ YEAR_MAX → (parseU32 n = none ∨ rest ≠ []) →
      Id.from_str s = .err .malformedId) := by
  refine ⟨?_,
    fun a y n v hs hy h1 h2 hn => from_str_ok_of_valid s hp hk a y n v hs hy h1 h2 hn,
    fun a y rest hs hy => from_str_err_malformedYear s hp hk a y rest hs hy,
    fun a y rest v hs hy hr => from_str_err_outOfRange s hp hk a y rest v hs hy hr,
    fun a y v hs hy h1 h2 => from_str_err_incomplete s hp hk a y v hs hy h1 h2,
    fun a y n rest v hs hy h1 h2 hbad =>
      from_str_err_malformedId s hp hk a y n rest v hs hy h1 h2 hbad⟩
  constructor
  · rintro ⟨id, hid⟩
    obtain ⟨a, y, rest, hsplit⟩ := exists_cons_cons_of_yearBearing s hk
    cases hy : parseU32 y with
    | none =>
      rw [from_str_err_malformedYear s hp hk a y rest hsplit hy] at hid
      exact absurd hid (by simp)
    | some v =>
      by_cases hr : YEAR_MIN ≤ v ∧ v ≤ YEAR_MAX
      · cases rest with
        | nil =>
          rw [from_str_err_incomplete s hp hk a y v hsplit hy hr.1 hr.2] at hid
          exact absurd hid (by simp)
        | cons n rest2 =>
          cases rest2 with
          | nil =>
            by_cases hn : (parseU32 n).isSome = true
            · exact ⟨a, y, n, v, hsplit, hy, hr.1, hr.2, hn⟩
            · have hnone : parseU32 n = none := by
                cases hx : parseU32 n with
                | none => rfl
                | some m => rw [hx] at hn; simp at hn
              rw [from_str_err_malformedId s hp hk a y n [] v hsplit hy hr.1 hr.2
                    (Or.inl hnone)] at hid
              exact absurd hid (by simp)
          | cons b t =>
            rw [from_str_err_malformedId s hp hk a y n (b :: t) v hsplit hy hr.1 hr.2
                  (Or.inr (by simp))] at hid
            exact absurd hid (by simp)
      · rw [from_str_err_outOfRange s hp hk a y rest v hsplit hy hr] at hid
        exact absurd hid (by simp)
  · rintro ⟨a, y, n, v, hsplit, hy, h1, h2, hn⟩
    exact ⟨_, from_str_ok_of_valid s hp hk a y n v hsplit hy h1 h2 hn⟩

/-- Witness for C1 at concrete inputs: both year boundaries succeed, one unit
below and above fail out-of-range, and the spec's negative literals fail with
their announced error classes. -/
theorem C1_witness :
    (∃ id, Id.from_str "RUSTSEC-2000-0001" = .ok id) ∧
    (∃ id, Id.from_str "TALOS-2100-0468" = .ok id) ∧
    Id.from_str "RUSTSEC-1999-0001" = .err .outOfRangeYear ∧
    Id.from_str "TALOS-2101-0468" = .err .outOfRangeYear ∧
    Id.from_str "CVE-2017" = .err .incompleteId ∧
    Id.from_str "CVE-2017-abc" = .err .malformedId ∧
    Id.from_str "CVE-2017-1-2" = .err .malformedId := by
  refine ⟨?_, ?_, by decide, by decide, by decide, by decide, by decide⟩
  · exact (C1_year_bearing_validation "RUSTSEC-2000-0001" (by decide)
        (Or.inl (by decide))).1.mpr
      ⟨"RUSTSEC".data, "2000".data, "0001".data, 2000,
        by decide, by decide, by decide, by decide, by decide⟩
  · exact (C1_year_bearing_validation "TALOS-2100-0468" (by decide)
        (Or.inr (Or.inr (by decide)))).1.mpr
      ⟨"TALOS".data, "2100".data, "0468".data, 2100,
        by decide, by decide, by decide, by decide, by decide⟩

/-- C7 counterexample: parsing `"RUSTSEC-18-0001"` does not fail with the
malformed-year error the claim announces — the second segment `18` is
integer-shaped, so the parser rejects it with the out-of-range-year error. -/
theorem C7_counterexample :
    Id.from_str "RUSTSEC-18-0001" ≠ .err .malformedYear ∧
    Id.from_str "RUSTSEC-18-0001" = .err .outOfRangeYear :=
  ⟨by decide, by decide⟩

/-- C7 (amended): parsing the literal input `"RUSTSEC-18-0001"` fails, with
the out-of-range-year failure: `18` parses as an integer but lies outside the
configured year range. -/
theorem C7_amended :
    Id.from_str "RUSTSEC-18-0001" = .err .outOfRangeYear := by decide

/-- C10: numeric segments are parsed as 32-bit unsigned integers: any value
`parseU32` accepts is below `2^32`; a year-bearing identifier whose all-digit
third segment exceeds `u32::MAX` fails with the malformed-identifier error;
and `numerical_part` is absent whenever the final `-`-delimited segment of
the raw string is digit-shaped with value at least `2^32`. -/
theorem C10_u32_bounds :
    Id.from_str "CVE-2017-99999999999" = .err .malformedId ∧
    (∀ (cs : List Char) (n : Nat), parseU32 cs = some n → n < U32_MOD) ∧
    (∀ (id : Id) (seg : List Char) (v : Nat), '-' ∉ seg →
      (id.string.data = seg ∨ ∃ pre, id.string.data = pre ++ '-' :: seg) →
      digitsVal seg 0 = some v → U32_MOD ≤ v →
      id.numerical_part = none) := by
  refine ⟨by decide, fun cs n h => parseU32_lt cs n h, ?_⟩
  intro id seg v hnd hsplit hd hbig
  by_cases hp : id.string = PLACEHOLDER
  · simp [Id.numerical_part, Id.is_placeholder, hp]
  · have hl := getLast?_splitDash_eq id.string.data seg hnd hsplit
    simp [Id.numerical_part, Id.is_placeholder, hp, hl,
          parseU32_none_of_big seg v hd hbig]

/-- Witness for C10: `"99999999999"` is all digits yet exceeds `u32::MAX`,
so the identifier with raw string `"X-99999999999"` has no numerical part. -/
theorem C10_witness :
    (Id.mk Kind.Other none "X-99999999999").numerical_part = none :=
  C10_u32_bounds.2.2 (Id.mk Kind.Other none "X-99999999999") "99999999999".data
    99999999999 (by decide) (Or.inr ⟨"X".data, by decide⟩) (by decide) (by decide)

end RustsecId
